import Mathlib

/-!
Verification of the llm-waybar event-to-display daemon and session aggregator.

Shallow embedding of the Rust sources:
  crates/llm-bridge-core/src/state.rs   (WaybarState, compute_text, compute_tooltip,
                                         check_activity_timeout, write_atomic, read_from)
  crates/llm-bridge-core/src/socket.rs  (DaemonMessage encode/decode)
  crates/waybar-llm-bridge/src/daemon.rs (handle_event truncation, handle_status,
                                          debounce state machine)
  crates/waybar-llm-bridge/src/main.rs  (handle_event byte-based truncation)
  crates/waybar-llm-bridge/src/aggregator.rs (SessionAggregator::aggregate)

Machine integers are modelled as Nat/Int; `f64` values are modelled as the exact
rational value carried by the IEEE-754 binary64 datum (parsing a decimal literal
rounds to nearest, ties to even; fixed-point formatting rounds the exact value,
ties to even — both as in Rust).  Strings are Lean `String`s, whose `.data`
field is the list of Unicode scalar values, matching Rust's `str::chars()`.
-/

namespace LlmWaybar

/-- JSON values, the image of `serde_json`'s data model that this program uses.
Numbers carry the exact rational value of the `f64`/`u64`/`i64` datum. -/
inductive Json where
  | null
  | bool (b : Bool)
  | num (q : ℚ)
  | str (s : String)
  | arr (elems : List Json)
  | obj (fields : List (String × Json))

/-- First binding of `key` in an object's field list (field names written by
`write_atomic` are unique, so this matches `serde_json`'s behaviour). -/
def Json.lookupKey (fields : List (String × Json)) (key : String) : Option Json :=
  match fields with
  | [] => none
  | (k, v) :: rest => if k = key then some v else Json.lookupKey rest key

/-- The Display State: `WaybarState` from state.rs lines 8-39.

The fields `session_id` and `cwd` are *Modelled from the spec:* their
declaration is missing from the sources provided (state.rs's struct as given
omits them), but they are assigned by `Daemon::handle_status` (daemon.rs
167-173), by main.rs (224, 371-374) and read by the aggregator (aggregator.rs
159), and the spec's data model (§3) lists them: "`session_id`, `cwd: string` —
session identity metadata."  They are serialized like every other field. -/
structure WaybarState where
  model : String
  activity : String
  cost : ℚ
  input_tokens : ℕ
  output_tokens : ℕ
  cache_read : ℕ
  cache_write : ℕ
  last_activity_time : ℤ
  session_id : String
  cwd : String
  text : String
  tooltip : String
  «class» : String
  alt : String
  percentage : ℕ
deriving DecidableEq

/-- `Default for WaybarState` (state.rs 41-59), extended with empty
`session_id`/`cwd` (the `String::new()` default used for every string field). -/
def WaybarState.default : WaybarState where
  model := ""
  activity := "Idle"
  cost := 0
  input_tokens := 0
  output_tokens := 0
  cache_read := 0
  cache_write := 0
  last_activity_time := 0
  session_id := ""
  cwd := ""
  text := "Idle"
  tooltip := ""
  «class» := "idle"
  alt := "idle"
  percentage := 0

/-- `AgentPhase` (state.rs 61-67). -/
inductive AgentPhase where
  | idle
  | thinking
  | toolUse (tool : String)
  | error (message : String)
deriving DecidableEq

/-! ### Serialization (serde derive on `WaybarState`)

Every field carries `#[serde(default)]`: a missing key deserializes to the
field type's `Default` (empty string / zero), a key that is present must have
the right JSON type or the whole deserialization fails. -/

/-- Deserialize a `String` field with `#[serde(default)]`. -/
def getStrD (kvs : List (String × Json)) (key : String) : Option String :=
  match Json.lookupKey kvs key with
  | none => some ""
  | some (.str s) => some s
  | some _ => none

/-- Deserialize a `u64` field with `#[serde(default)]`: the JSON number must be
a non-negative integer.  (Rust's upper `u64` bound is not modelled: every value
written by the program originates from a `u64`.) -/
def getNatD (kvs : List (String × Json)) (key : String) : Option ℕ :=
  match Json.lookupKey kvs key with
  | none => some 0
  | some (.num q) => if q.den = 1 ∧ 0 ≤ q.num then some q.num.toNat else none
  | some _ => none

/-- Deserialize an `i64` field with `#[serde(default)]`: the JSON number must be
an integer. -/
def getIntD (kvs : List (String × Json)) (key : String) : Option ℤ :=
  match Json.lookupKey kvs key with
  | none => some 0
  | some (.num q) => if q.den = 1 then some q.num else none
  | some _ => none

/-- Deserialize an `f64` field with `#[serde(default)]`. -/
def getRatD (kvs : List (String × Json)) (key : String) : Option ℚ :=
  match Json.lookupKey kvs key with
  | none => some 0
  | some (.num q) => some q
  | some _ => none

/-- `serde_json::to_string(self)` for `WaybarState`, at the JSON-value level
(fields in declaration order). -/
def toJsonWaybar (s : WaybarState) : Json :=
  .obj
    [ ("model", .str s.model)
    , ("activity", .str s.activity)
    , ("cost", .num s.cost)
    , ("input_tokens", .num s.input_tokens)
    , ("output_tokens", .num s.output_tokens)
    , ("cache_read", .num s.cache_read)
    , ("cache_write", .num s.cache_write)
    , ("last_activity_time", .num s.last_activity_time)
    , ("session_id", .str s.session_id)
    , ("cwd", .str s.cwd)
    , ("text", .str s.text)
    , ("tooltip", .str s.tooltip)
    , ("class", .str s.«class»)
    , ("alt", .str s.alt)
    , ("percentage", .num s.percentage) ]

/-- `serde_json::from_str` for `WaybarState` at the JSON-value level: the
document must be an object, each declared field is looked up by name
(`#[serde(default)]`), unknown keys are ignored. -/
def fromJsonWaybar (j : Json) : Option WaybarState :=
  match j with
  | .obj kvs => do
      let model ← getStrD kvs "model"
      let activity ← getStrD kvs "activity"
      let cost ← getRatD kvs "cost"
      let input_tokens ← getNatD kvs "input_tokens"
      let output_tokens ← getNatD kvs "output_tokens"
      let cache_read ← getNatD kvs "cache_read"
      let cache_write ← getNatD kvs "cache_write"
      let last_activity_time ← getIntD kvs "last_activity_time"
      let session_id ← getStrD kvs "session_id"
      let cwd ← getStrD kvs "cwd"
      let text ← getStrD kvs "text"
      let tooltip ← getStrD kvs "tooltip"
      let cls ← getStrD kvs "class"
      let alt ← getStrD kvs "alt"
      let percentage ← getNatD kvs "percentage"
      some ⟨model, activity, cost, input_tokens, output_tokens, cache_read,
            cache_write, last_activity_time, session_id, cwd, text, tooltip,
            cls, alt, percentage⟩
  | _ => none

/-- `WaybarState::check_activity_timeout` (state.rs 88-112): if the activity is
non-`Idle`, the timestamp is set, and it is more than 60 seconds old, reset
activity/class/alt to idle.  Returns the new state and whether it was reset. -/
def checkActivityTimeout (now : ℤ) (s : WaybarState) : WaybarState × Bool :=
  if s.activity = "Idle" then (s, false)
  else if s.last_activity_time = 0 then (s, false)
  else if 60 < now - s.last_activity_time then
    ({ s with activity := "Idle", «class» := "idle", alt := "idle" }, true)
  else (s, false)

/-! ### File system model

A file system maps paths to the JSON document stored in the file (file contents
that are not valid JSON never arise from this program's own writes; a parse
failure of a valid-JSON-but-wrong-shape document is covered by `fromJsonWaybar`
returning `none`). -/

/-- Paths are strings. -/
abbrev FsPath := String

/-- A file system: which JSON document, if any, each path holds. -/
abbrev Fs := FsPath → Option Json

/-- The empty file system. -/
def emptyFs : Fs := fun _ => none

/-- Errors `read_from` can return (`std::io::Error` kinds used). -/
inductive ReadErr where
  | notFound
  | invalidData
deriving DecidableEq

instance {ε α : Type} [DecidableEq ε] [DecidableEq α] : DecidableEq (Except ε α)
  | .error e, .error f => decidable_of_iff (e = f) (by simp)
  | .error _, .ok _ => isFalse (by simp)
  | .ok _, .error _ => isFalse (by simp)
  | .ok a, .ok b => decidable_of_iff (a = b) (by simp)

/-- `WaybarState::write_atomic` (state.rs 222-232): serialize, write to a
temporary path, fsync, atomically rename over `path`.  Modelled by its net
effect on the file system: after the rename the target path holds the complete
serialized object (readers never observe the intermediate temporary state). -/
def writeAtomic (fs : Fs) (path : FsPath) (s : WaybarState) : Fs :=
  fun q => if q = path then some (toJsonWaybar s) else fs q

/-- Deserialize file contents and apply the lazy staleness check: the body of
`WaybarState::read_from` after `fs::read_to_string` (state.rs 236-242). -/
def readContent (j : Json) (now : ℤ) : Except ReadErr WaybarState :=
  match fromJsonWaybar j with
  | none => .error .invalidData
  | some st => .ok (checkActivityTimeout now st).1

/-- `WaybarState::read_from` (state.rs 234-243): read the file (missing file is
an I/O error), deserialize (failure maps to `InvalidData`), then run
`check_activity_timeout` with the read-time clock `now`. -/
def readFrom (fs : Fs) (path : FsPath) (now : ℤ) : Except ReadErr WaybarState :=
  match fs path with
  | none => .error .notFound
  | some j => readContent j now

/-- `WaybarState::read_from(path).unwrap_or_default()` — the idiom of the
daemon.rs (line 45) and main.rs (lines 179, 245, 261, 291, 363) call sites; the
two aggregator.rs call sites (lines 65, 198) instead match on `Ok` and skip
the file when the read fails. -/
def readFromOrDefault (fs : Fs) (path : FsPath) (now : ℤ) : WaybarState :=
  match readFrom fs path now with
  | .ok st => st
  | .error _ => WaybarState.default

/-! ### Text engine -/

/-- Worker for `replaceAll`, structurally recursive so that it evaluates in
the kernel: `skip` counts characters still to be dropped because they were
consumed by a pattern match (the replacement has already been emitted). -/
def replaceAllGo (pat repl : List Char) : List Char → ℕ → List Char
  | [], _ => []
  | _ :: rest, k + 1 => replaceAllGo pat repl rest k
  | c :: rest, 0 =>
      if pat.isPrefixOf (c :: rest) then
        repl ++ replaceAllGo pat repl rest (pat.length - 1)
      else
        c :: replaceAllGo pat repl rest 0

/-- Rust's `str::replace`: replace every non-overlapping occurrence of `pat`,
scanning left to right (`pat` is never empty in this program). -/
def replaceAll (pat repl s : List Char) : List Char :=
  replaceAllGo pat repl s 0

theorem replaceAllGo_skip (pat repl : List Char) (s : List Char) (k : ℕ) :
    replaceAllGo pat repl s k = replaceAllGo pat repl (s.drop k) 0 := by
  induction s generalizing k with
  | nil => cases k <;> rfl
  | cons c rest ih =>
      cases k with
      | zero => rfl
      | succ k => simpa [replaceAllGo] using ih k

@[simp] theorem replaceAll_nil (pat repl : List Char) : replaceAll pat repl [] = [] := rfl

theorem replaceAll_cons (pat repl : List Char) (c : Char) (rest : List Char) :
    replaceAll pat repl (c :: rest) =
      if pat.isPrefixOf (c :: rest) then
        repl ++ replaceAll pat repl (rest.drop (pat.length - 1))
      else
        c :: replaceAll pat repl rest := by
  show replaceAllGo pat repl (c :: rest) 0 = _
  rw [replaceAllGo, replaceAllGo_skip]
  rfl

/-- Rust's `str::contains` for a string pattern. -/
def containsSub (pat : List Char) : List Char → Bool
  | [] => pat.isPrefixOf []
  | c :: rest => pat.isPrefixOf (c :: rest) || containsSub pat rest

/-- A one-character string from a Unicode code point (the Nerd Font icons are
written as `\u{...}` escapes in state.rs). -/
def iconOf (n : ℕ) : String := ⟨[Char.ofNat n]⟩

/-- `WaybarState::get_activity_icon` (state.rs 72-84). -/
def getActivityIcon (s : WaybarState) : String :=
  match s.activity with
  | "Thinking" | "Thinking..." => iconOf 0xf0517
  | "Read" => iconOf 0xf0214
  | "Edit" => iconOf 0xf03eb
  | "Write" => iconOf 0xf03eb
  | "Bash" => iconOf 0xf018d
  | "Grep" | "Glob" => iconOf 0xf0349
  | "Task" => iconOf 0xf0517
  | "Idle" => iconOf 0xf04b2
  | _ => iconOf 0xf0327

/-- Worker for `log2Nat`: the first argument is fuel making the recursion
structural (and hence kernel-evaluable). -/
def log2NatGo : ℕ → ℕ → ℕ
  | 0, _ => 0
  | fuel + 1, n => if n ≤ 1 then 0 else 1 + log2NatGo fuel (n / 2)

/-- Floor base-2 logarithm: `2 ^ log2Nat n ≤ n` for `n ≥ 1` (`n` halves each
step, so `n` steps of fuel always suffice). -/
def log2Nat (n : ℕ) : ℕ := log2NatGo n n

/-- Round the fraction `n / d` (with `d > 0`) to the nearest integer, ties to
even — the rounding Rust uses both when parsing a decimal float literal and
when formatting a float with `{:.N}` fixed precision.  Written with integer
arithmetic only (`f` is the floor; `r2 = 2·d·(n/d − f)` compares the
fractional part against one half). -/
def roundHalfEvenInt (n : ℤ) (d : ℕ) : ℤ :=
  let f := n.fdiv d
  let r2 := 2 * (n - f * d)
  if r2 < d then f
  else if (d : ℤ) < r2 then f + 1
  else if f % 2 = 0 then f else f + 1

/-- Round a rational to the nearest integer, ties to even. -/
def roundHalfEvenQ (x : ℚ) : ℤ := roundHalfEvenInt x.num x.den

/-- Zero-pad a digit string on the left to width `len`. -/
def padZeroes (len : ℕ) (s : List Char) : List Char :=
  List.replicate (len - s.length) '0' ++ s

/-- Rust's `format!("{:.prec$}", x)` for an `f64` holding the exact rational
value `q`: correctly rounded fixed-point decimal, ties to even.  `q · 10^prec`
is formed on the numerator so that only integer arithmetic is involved. -/
def fmtFixed (q : ℚ) (prec : ℕ) : List Char :=
  let scaled := roundHalfEvenInt (q.num * ((10 ^ prec : ℕ) : ℤ)) q.den
  let sign : List Char := if scaled < 0 then ['-'] else []
  let n := scaled.natAbs
  if prec = 0 then sign ++ (Nat.repr n).data
  else sign ++ (Nat.repr (n / 10 ^ prec)).data ++ ['.']
         ++ padZeroes prec (Nat.repr (n % 10 ^ prec)).data

/-- The IEEE-754 binary64 value denoted by a Rust decimal literal with exact
value `q`, for normal values with `1 ≤ q` (the only use in this development is
the literal `2.51609`): round to the nearest representable `m · 2^e / 2^52`
where `2^e ≤ q < 2^(e+1)`, ties to even.  `q / (2^e/2^52) = q·2^52 / 2^e` is
again formed on the numerator and denominator. -/
def f64OfRat (q : ℚ) : ℚ :=
  if 1 ≤ q then
    let e := log2Nat (q.num.fdiv q.den).toNat
    let m := roundHalfEvenInt (q.num * ((2 ^ 52 : ℕ) : ℤ)) (q.den * 2 ^ e)
    mkRat (m * ((2 ^ e : ℕ) : ℤ)) (2 ^ 52)
  else q

/-- The placeholder string `format!("{{cost:.{}}}", precision)` built by the
cost loop in `compute_text` (state.rs 139-144). -/
def costPlaceholder (precision : ℕ) : List Char :=
  "\x7bcost:.".data ++ (Nat.repr precision).data ++ "\x7d".data

/-- The character stream of `WaybarState::compute_text` (state.rs 125-157):
successive `str::replace` passes over the format string — model, activity,
icon, the seven `{cost:.N}` precisions (each guarded by a `contains` test),
plain `{cost}` at default precision 4, then the token counters. -/
def computeTextData (s : WaybarState) (format : String) : List Char :=
  let r := format.data
  let r := replaceAll "{model}".data s.model.data r
  let r := replaceAll "{activity}".data s.activity.data r
  let r := replaceAll "{icon}".data (getActivityIcon s).data r
  let r := (List.range 7).foldl (fun r precision =>
      let ph := costPlaceholder precision
      if containsSub ph r then replaceAll ph (fmtFixed s.cost precision) r
      else r) r
  let r := replaceAll "{cost}".data (fmtFixed s.cost 4) r
  let total_tokens := s.input_tokens + s.output_tokens
  let r := replaceAll "{tokens}".data (Nat.repr total_tokens).data r
  let r := replaceAll "{input_tokens}".data (Nat.repr s.input_tokens).data r
  let r := replaceAll "{output_tokens}".data (Nat.repr s.output_tokens).data r
  let r := replaceAll "{cache_read}".data (Nat.repr s.cache_read).data r
  let r := replaceAll "{cache_write}".data (Nat.repr s.cache_write).data r
  r

/-- `WaybarState::compute_text` as a string. -/
def computeText (s : WaybarState) (format : String) : String :=
  ⟨computeTextData s format⟩

/-- `WaybarState::compute_tooltip` (state.rs 160-190): one fact per line for
each non-empty/non-zero group, joined by newlines. -/
def computeTooltip (s : WaybarState) : String :=
  let parts : List String :=
    (if s.model ≠ "" then ["Model: " ++ s.model] else []) ++
    (if s.activity ≠ "" then ["Activity: " ++ s.activity] else []) ++
    (if 0 < s.input_tokens ∨ 0 < s.output_tokens then
      ["Tokens: " ++ Nat.repr s.input_tokens ++ " in / "
        ++ Nat.repr s.output_tokens ++ " out"] else []) ++
    (if 0 < s.cache_read ∨ 0 < s.cache_write then
      ["Cache: " ++ Nat.repr s.cache_read ++ " read / "
        ++ Nat.repr s.cache_write ++ " write"] else []) ++
    (if 0 < s.cost then ["Cost: $" ++ (⟨fmtFixed s.cost 4⟩ : String)] else [])
  String.intercalate "\n" parts

/-! ### Event handling (daemon.rs `handle_event`, main.rs `handle_event`) -/

/-- Tool-name truncation in `Daemon::handle_event` (daemon.rs 96-104):
char count, take 17 chars, append `...`. -/
def daemonTruncateTool (tool : String) : String :=
  if 20 < tool.data.length then ⟨tool.data.take 17 ++ "...".data⟩ else tool

/-- The phase table shared by daemon.rs 93-109: activity, class, alt. -/
def phaseFields : AgentPhase → String × String × String
  | .idle => ("Idle", "idle", "idle")
  | .thinking => ("Thinking", "thinking", "active")
  | .toolUse tool => (daemonTruncateTool tool, "tool-active", "active")
  | .error message => ("Error: " ++ message, "error", "error")

/-- Event-type dispatch (daemon.rs 83-91); unknown types return early. -/
def eventPhase (event_type : String) (tool : Option String) : Option AgentPhase :=
  match event_type with
  | "submit" => some .thinking
  | "tool-start" => some (.toolUse (tool.getD "unknown"))
  | "tool-end" => some .thinking
  | "stop" => some .idle
  | _ => none

/-- `Daemon::handle_event` (daemon.rs 82-119): set activity/class/alt from the
phase, stamp `last_activity_time`, recompute `text`. -/
def handleEvent (event_type : String) (tool : Option String) (now : ℤ)
    (format : String) (s : WaybarState) : WaybarState :=
  match eventPhase event_type tool with
  | none => s
  | some phase =>
      let f := phaseFields phase
      let s := { s with activity := f.1, «class» := f.2.1, alt := f.2.2,
                        last_activity_time := now }
      { s with text := computeText s format }

/-- UTF-8 byte length of a string's characters (Rust `str::len`). -/
def utf8Len (l : List Char) : ℕ := (l.map Char.utf8Size).sum

/-- Rust byte slicing `&s[..n]` on a UTF-8 string, as the chars taken:
`none` models the panic when `n` is not a character boundary (or past the
end). -/
def takeBytes : ℕ → List Char → Option (List Char)
  | 0, _ => some []
  | _ + 1, [] => none
  | n + 1, c :: cs =>
      if c.utf8Size ≤ n + 1 then (takeBytes (n + 1 - c.utf8Size) cs).map (c :: ·)
      else none

/-- Tool-name truncation in main.rs `handle_event` (lines 196-204): *byte*
length test `tool.len() > 20` and *byte* slice `&tool[..17]`; `none` models
the panic when byte 17 splits a character. -/
def mainTruncateTool (tool : String) : Option String :=
  if 20 < utf8Len tool.data then
    (takeBytes 17 tool.data).map (fun p => ⟨p ++ "...".data⟩)
  else some tool

/-! ### Status handling (daemon.rs `handle_status`) -/

/-- `ModelInfo` payload fragment (daemon.rs 132-136). -/
structure ModelInfo where
  id : Option String
  display_name : Option String
deriving DecidableEq

/-- `CostInfo` payload fragment (daemon.rs 138-141). -/
structure CostInfo where
  total_cost_usd : Option ℚ
deriving DecidableEq

/-- `CurrentUsage` payload fragment (daemon.rs 148-154). -/
structure CurrentUsage where
  input_tokens : Option ℕ
  output_tokens : Option ℕ
  cache_creation_input_tokens : Option ℕ
  cache_read_input_tokens : Option ℕ
deriving DecidableEq

/-- `ContextWindow` payload fragment (daemon.rs 143-146). -/
structure ContextWindow where
  current_usage : Option CurrentUsage
deriving DecidableEq

/-- `StatusPayload` (daemon.rs 123-130): every field is an `Option`. -/
structure StatusPayload where
  session_id : Option String
  cwd : Option String
  model : Option ModelInfo
  cost : Option CostInfo
  context_window : Option ContextWindow
deriving DecidableEq

/-- serde `Option<String>` field: missing or `null` is `None`; any other
non-string value fails the whole parse. -/
def getOptStr (kvs : List (String × Json)) (key : String) : Option (Option String) :=
  match Json.lookupKey kvs key with
  | none => some none
  | some .null => some none
  | some (.str s) => some (some s)
  | some _ => none

/-- serde `Option<u64>` field: the number must be a non-negative integer. -/
def getOptNat (kvs : List (String × Json)) (key : String) : Option (Option ℕ) :=
  match Json.lookupKey kvs key with
  | none => some none
  | some .null => some none
  | some (.num q) => if q.den = 1 ∧ 0 ≤ q.num then some (some q.num.toNat) else none
  | some _ => none

/-- serde `Option<f64>` field. -/
def getOptRat (kvs : List (String × Json)) (key : String) : Option (Option ℚ) :=
  match Json.lookupKey kvs key with
  | none => some none
  | some .null => some none
  | some (.num q) => some (some q)
  | some _ => none

/-- serde `Option<T>` field for a nested struct `T` with parser `parse`. -/
def getOptSub {α : Type} (parse : Json → Option α)
    (kvs : List (String × Json)) (key : String) : Option (Option α) :=
  match Json.lookupKey kvs key with
  | none => some none
  | some .null => some none
  | some j => (parse j).map some

/-- Parse `ModelInfo`. -/
def parseModelInfo (j : Json) : Option ModelInfo :=
  match j with
  | .obj kvs => do
      let id ← getOptStr kvs "id"
      let display_name ← getOptStr kvs "display_name"
      some ⟨id, display_name⟩
  | _ => none

/-- Parse `CostInfo`. -/
def parseCostInfo (j : Json) : Option CostInfo :=
  match j with
  | .obj kvs => do
      let t ← getOptRat kvs "total_cost_usd"
      some ⟨t⟩
  | _ => none

/-- Parse `CurrentUsage`. -/
def parseCurrentUsage (j : Json) : Option CurrentUsage :=
  match j with
  | .obj kvs => do
      let it ← getOptNat kvs "input_tokens"
      let ot ← getOptNat kvs "output_tokens"
      let ccit ← getOptNat kvs "cache_creation_input_tokens"
      let crit ← getOptNat kvs "cache_read_input_tokens"
      some ⟨it, ot, ccit, crit⟩
  | _ => none

/-- Parse `ContextWindow`. -/
def parseContextWindow (j : Json) : Option ContextWindow :=
  match j with
  | .obj kvs => do
      let cu ← getOptSub parseCurrentUsage kvs "current_usage"
      some ⟨cu⟩
  | _ => none

/-- Parse `StatusPayload` (`serde_json::from_str::<StatusPayload>`). -/
def parseStatusPayload (j : Json) : Option StatusPayload :=
  match j with
  | .obj kvs => do
      let sid ← getOptStr kvs "session_id"
      let cwd ← getOptStr kvs "cwd"
      let model ← getOptSub parseModelInfo kvs "model"
      let cost ← getOptSub parseCostInfo kvs "cost"
      let cw ← getOptSub parseContextWindow kvs "context_window"
      some ⟨sid, cwd, model, cost, cw⟩
  | _ => none

/-- The field updates of `Daemon::handle_status` (daemon.rs 157-182): each
payload part that is present overwrites its fields — model (display name,
falling back to id, then to `"Claude"`), cost (`total_cost_usd`, defaulting to
0), session id, cwd, and the four token counters from
`context_window.current_usage`. -/
def applyStatusFields (status : StatusPayload) (s : WaybarState) : WaybarState :=
  let s := match status.model with
    | some m => { s with model := (m.display_name.orElse fun _ => m.id).getD "Claude" }
    | none => s
  let s := match status.cost with
    | some c => { s with cost := c.total_cost_usd.getD 0 }
    | none => s
  let s := match status.session_id with
    | some sid => { s with session_id := sid }
    | none => s
  let s := match status.cwd with
    | some cwd => { s with cwd := cwd }
    | none => s
  match status.context_window with
  | some cw =>
      match cw.current_usage with
      | some u =>
          { s with input_tokens := u.input_tokens.getD 0,
                   output_tokens := u.output_tokens.getD 0,
                   cache_read := u.cache_read_input_tokens.getD 0,
                   cache_write := u.cache_creation_input_tokens.getD 0 }
      | none => s
  | none => s

/-- `Daemon::handle_status` (daemon.rs 121-187): on a parseable payload,
apply the field updates, then recompute `text` and `tooltip` (daemon.rs
184-185); an unparseable payload changes nothing. -/
def handleStatus (payload : Json) (format : String) (s : WaybarState) : WaybarState :=
  match parseStatusPayload payload with
  | none => s
  | some status =>
      let s := applyStatusFields status s
      { s with text := computeText s format, tooltip := computeTooltip s }

/-! ### Debounce timers (daemon.rs) -/

/-- `DEBOUNCE_MS` (daemon.rs line 8), the quiet window. -/
def DEBOUNCE_MS : ℕ := 16

/-- `MAX_DEBOUNCE_MS` (daemon.rs line 9), the absolute cap. -/
def MAX_DEBOUNCE_MS : ℕ := 50

/-- The debounce-relevant slice of the `Daemon` struct (daemon.rs 27-29);
times are milliseconds on the monotonic clock. -/
structure DebounceState where
  pending_signal : Bool
  first_event_time : Option ℕ
  last_event_time : ℕ
deriving DecidableEq

/-- `Daemon::new` (daemon.rs 56-58): no pending signal, no first event,
`last_event_time = Instant::now()` modelled as clock 0. -/
def debounceInit : DebounceState := ⟨false, none, 0⟩

/-- The bookkeeping after every message, `handle_message` tail
(daemon.rs 74-79). -/
def noteMessage (now : ℕ) (d : DebounceState) : DebounceState :=
  { d with last_event_time := now,
           first_event_time :=
             if d.first_event_time.isNone then some now else d.first_event_time,
           pending_signal := true }

/-- `Daemon::should_signal` (daemon.rs 190-204): fire when pending and the
quiet window has passed since the last event, or the cap has passed since the
first event of the burst (`None` counts as a zero duration). -/
def shouldSignal (now : ℕ) (d : DebounceState) : Bool :=
  if !d.pending_signal then false
  else
    let since_last := now - d.last_event_time
    let since_first := match d.first_event_time with
      | some t => now - t
      | none => 0
    decide (DEBOUNCE_MS ≤ since_last) || decide (MAX_DEBOUNCE_MS ≤ since_first)

/-- The debounce reset at the end of `Daemon::do_signal` (daemon.rs 224-225). -/
def doSignalReset (d : DebounceState) : DebounceState :=
  { d with pending_signal := false, first_event_time := none }

/-- One iteration of the daemon loop (daemon.rs 295-325) at millisecond `t`,
restricted to the debounce machinery: receive at most one message (`ev t`
says whether a datagram arrives this millisecond), then check the debounce
timer and signal.  Returns the new state and whether a signal fired. -/
def debounceTick (ev : ℕ → Bool) (t : ℕ) (d : DebounceState) : DebounceState × Bool :=
  let d := if ev t then noteMessage t d else d
  if shouldSignal t d then (doSignalReset d, true) else (d, false)

/-- Number of signals fired over loop iterations at times `0, 1, …, ticks-1`,
starting from the initial daemon state. -/
def fireCount (ev : ℕ → Bool) (ticks : ℕ) : ℕ :=
  ((List.range ticks).foldl (fun p t =>
      let r := debounceTick ev t p.1
      (r.1, p.2 + if r.2 then 1 else 0)) (debounceInit, 0)).2

/-- A burst of `N` messages arriving `DEBOUNCE_MS / 2 = 8` ms apart, the first
one at time 0. -/
def burstEvents (N : ℕ) (t : ℕ) : Bool := t % 8 == 0 && t < 8 * N

/-! ### Session aggregator (aggregator.rs) -/

/-- `AggregateState` (aggregator.rs 12-20). -/
structure AggregateState where
  text : String
  tooltip : String
  «class» : String
  alt : String
  sessions : ℕ
  total_cost : ℚ
deriving DecidableEq

/-- `Default for AggregateState` (aggregator.rs 22-33). -/
def AggregateState.default : AggregateState := ⟨"Idle", "", "idle", "idle", 0, 0⟩

/-- `stale_timeout_secs` (aggregator.rs 49). -/
def STALE_TIMEOUT_SECS : ℕ := 300

/-- The `path.extension() == "json"` test of aggregator.rs 64, on file
names of the form `<session-id>.json`. -/
def hasJsonExt (name : String) : Bool := ".json".data.isSuffixOf name.data

/-- The sessions `SessionAggregator::aggregate` (aggregator.rs 54-78) keeps: a
directory listing of (file name, JSON contents); keep `*.json` entries that
parse (`read_from`, including its lazy staleness reset) and are not stale:
`last_activity_time > 0` and age `< 300` s. -/
def includedSessions (entries : List (String × Json)) (now : ℤ) : List WaybarState :=
  entries.filterMap fun e =>
    if hasJsonExt e.1 then
      match readContent e.2 now with
      | .ok st =>
          if 0 < st.last_activity_time
              ∧ now - st.last_activity_time < (STALE_TIMEOUT_SECS : ℤ) then some st
          else none
      | .error _ => none
    else none

/-- Sessions currently at activity `act` (the `activity_counts` hash map of
aggregator.rs 86-92, read back by key). -/
def countActivity (sessions : List WaybarState) (act : String) : ℕ :=
  (sessions.filter (fun s => s.activity = act)).length

/-- The `icon_map` array (aggregator.rs 119-128); the glyphs are the same Nerd
Font code points as in state.rs. -/
def aggIconMap : List (String × String) :=
  [ ("Thinking", iconOf 0xf0517), ("Read", iconOf 0xf0214)
  , ("Edit", iconOf 0xf03eb), ("Write", iconOf 0xf03eb)
  , ("Bash", iconOf 0xf018d), ("Grep", iconOf 0xf0349)
  , ("Glob", iconOf 0xf0349), ("Task", iconOf 0xf0517) ]

/-- `build_aggregate_text` (aggregator.rs 115-150): `count icon` tokens joined
by spaces, or an idle + total-cost line when no part was produced. -/
def buildAggregateText (sessions : List WaybarState) (total_cost : ℚ) : String :=
  let parts := aggIconMap.filterMap fun p =>
    let c := countActivity sessions p.1
    if 0 < c then some (Nat.repr c ++ " " ++ p.2) else none
  if 0 < countActivity sessions "Idle" ∧ parts = [] then
    iconOf 0xf04b2 ++ " Idle | $" ++ (⟨fmtFixed total_cost 2⟩ : String)
  else if parts = [] then
    iconOf 0xf04b2 ++ " Idle | $" ++ (⟨fmtFixed total_cost 2⟩ : String)
  else
    String.intercalate " " parts ++ " | $" ++ (⟨fmtFixed total_cost 2⟩ : String)

/-- `build_aggregate_tooltip` (aggregator.rs 152-171): header line, blank
line, then one line per session with the home directory replaced by `~`. -/
def buildAggregateTooltip (home : String) (sessions : List WaybarState)
    (total_cost : ℚ) : String :=
  let header := Nat.repr sessions.length ++ " active sessions | $"
    ++ (⟨fmtFixed total_cost 2⟩ : String) ++ " total"
  let lines := [header, ""] ++ sessions.map (fun s =>
    let cwd_short : String := ⟨replaceAll home.data "~".data s.cwd.data⟩
    cwd_short ++ ": " ++ s.model ++ " - " ++ s.activity ++ " ($"
      ++ (⟨fmtFixed s.cost 2⟩ : String) ++ ")")
  String.intercalate "\n" lines

/-- `compute_aggregate` (aggregator.rs 80-113); `home` is `dirs::home_dir()`. -/
def computeAggregate (home : String) (sessions : List WaybarState) : AggregateState :=
  if sessions.isEmpty then AggregateState.default
  else
    let total_cost := (sessions.map (·.cost)).sum
    let any_active := sessions.any fun s => s.activity != "Idle"
    ⟨buildAggregateText sessions total_cost,
     buildAggregateTooltip home sessions total_cost,
     if any_active then "active" else "idle",
     if any_active then "active" else "idle",
     sessions.length, total_cost⟩

/-- `SessionAggregator::aggregate` (aggregator.rs 54-78). -/
def aggregate (entries : List (String × Json)) (now : ℤ) (home : String) :
    AggregateState :=
  computeAggregate home (includedSessions entries now)

/-! ### Wire protocol (socket.rs) -/

/-- `DaemonMessage` (socket.rs 6-10). -/
inductive DaemonMessage where
  | event (event_type : String) (tool : Option String)
  | status (payload : String)
deriving DecidableEq

/-- `DaemonMessage::encode` (socket.rs 13-23). -/
def DaemonMessage.encode : DaemonMessage → String
  | .event t none => "EVENT:" ++ t
  | .event t (some tl) => "EVENT:" ++ t ++ ":" ++ tl
  | .status p => "STATUS:" ++ p

/-- Rust `str::strip_prefix`. -/
def dropPre (pat s : List Char) : Option (List Char) :=
  if pat.isPrefixOf s then some (s.drop pat.length) else none

/-- Rust `str::splitn(2, sep)`: the part before the first separator and,
when a separator exists, the rest. -/
def splitFirst (sep : Char) : List Char → List Char × Option (List Char)
  | [] => ([], none)
  | c :: cs =>
      if c = sep then ([], some cs)
      else
        let r := splitFirst sep cs
        (c :: r.1, r.2)

/-- `DaemonMessage::decode` (socket.rs 25-37): `EVENT:` messages split the
rest at the first `:` into event type and optional tool; `STATUS:` messages
keep the rest verbatim; anything else decodes to nothing. -/
def DaemonMessage.decode (s : String) : Option DaemonMessage :=
  match dropPre "EVENT:".data s.data with
  | some rest =>
      let r := splitFirst ':' rest
      some (.event ⟨r.1⟩ (r.2.map fun l => ⟨l⟩))
  | none =>
      match dropPre "STATUS:".data s.data with
      | some rest => some (.status ⟨rest⟩)
      | none => none

/-! ## Theorems -/

/-- Serialization round-trip at the JSON level: deserializing what
`write_atomic` serializes restores every field. -/
theorem fromJson_toJson (s : WaybarState) : fromJsonWaybar (toJsonWaybar s) = some s := by
  simp [fromJsonWaybar, toJsonWaybar, Json.lookupKey, getStrD, getNatD, getIntD, getRatD]

/-- A state whose presentation tags are not idle: activity `Read`,
class `tool-active`, alt `active`, last activity at Unix second 100. -/
def c1State : WaybarState :=
  { WaybarState.default with activity := "Read", «class» := "tool-active",
                             alt := "active", last_activity_time := 100 }

/-- C1, counterexample: write `c1State` and read it back 100 seconds after its
`last_activity_time`.  The claim says the result equals the original with only
`activity` forced to `Idle`; it does not — `check_activity_timeout`
(state.rs 104-108) also resets `class` and `alt` to `idle`. -/
theorem c1_counterexample :
    ¬ (readFrom (writeAtomic emptyFs "state.json" c1State) "state.json" 200
        = .ok { c1State with activity := "Idle" }) := by decide

/-- C1 (amended): `write_atomic` followed by `read_from` yields a state equal
to the original, except that when the original activity is not `Idle`, its
`last_activity_time` is nonzero, and it is more than 60 seconds older than the
read time, the `activity`, `class` and `alt` fields are all reset to their
idle values; no other field differs. -/
theorem c1_roundtrip_staleness (fs : Fs) (path : FsPath) (s : WaybarState) (now : ℤ) :
    readFrom (writeAtomic fs path s) path now =
      .ok (if s.activity ≠ "Idle" ∧ s.last_activity_time ≠ 0
              ∧ 60 < now - s.last_activity_time
           then { s with activity := "Idle", «class» := "idle", alt := "idle" }
           else s) := by
  simp only [readFrom, writeAtomic, if_pos, readContent, fromJson_toJson,
             checkActivityTimeout]
  split_ifs with h1 h2 h3 <;> simp_all

/-- C3, counterexample: with no file at the path, `read_from` (state.rs
234-243) returns an error; it does not return the zero-value default state —
the claim's "yields the default rather than propagating an error" fails. -/
theorem c3_counterexample :
    ¬ (readFrom emptyFs "waybar-llm.json" 0 = .ok WaybarState.default) := by decide

/-- C3 (amended): on a missing file or undeserializable contents, `read_from`
returns an error (it never panics — it is total and returns `Except`), and each
of its callers recovers: the six `read_from(path).unwrap_or_default()` sites
(daemon.rs 45, main.rs 179/245/261/291/363) turn the error into the zero-value
default state, while the two aggregator directory scans (aggregator.rs 65 and
198) match on `Ok` and skip the file, so a file whose contents fail to
deserialize contributes no session to the aggregate. -/
theorem c3_read_error_fallback (fs : Fs) (path : FsPath) (now : ℤ)
    (h : fs path = none ∨ ∃ j, fs path = some j ∧ fromJsonWaybar j = none) :
    (∃ e, readFrom fs path now = .error e)
      ∧ readFromOrDefault fs path now = WaybarState.default
      ∧ ∀ name j rest, fs path = some j →
          includedSessions ((name, j) :: rest) now = includedSessions rest now := by
  rcases h with h | ⟨j, hj, hp⟩
  · exact ⟨⟨.notFound, by simp [readFrom, h]⟩,
      by simp [readFromOrDefault, readFrom, h],
      fun name j' rest hj' => absurd (h ▸ hj') (by simp)⟩
  · refine ⟨⟨.invalidData, by simp [readFrom, hj, readContent, hp]⟩,
      by simp [readFromOrDefault, readFrom, hj, readContent, hp], ?_⟩
    intro name j' rest hj'
    rw [hj, Option.some_inj] at hj'
    subst hj'
    simp [includedSessions, List.filterMap_cons, readContent, hp]

/-- A file system holding one session file whose contents are not a JSON
object, hence fail to deserialize. -/
def c3BadFs : Fs :=
  fun p => if p = "sessions/a.json" then some (.str "oops") else none

/-- C3 witness: the fallback theorem applied to a file system with one
undeserializable session file, third conjunct instantiated at that file. -/
theorem c3_witness :
    (∃ e, readFrom c3BadFs "sessions/a.json" 7 = .error e)
      ∧ readFromOrDefault c3BadFs "sessions/a.json" 7 = WaybarState.default
      ∧ includedSessions [("a.json", .str "oops")] 7 = includedSessions [] 7 :=
  have h := c3_read_error_fallback c3BadFs "sessions/a.json" 7
    (Or.inr ⟨.str "oops", rfl, rfl⟩)
  ⟨h.1, h.2.1, h.2.2 "a.json" (.str "oops") [] rfl⟩

/-- The field of name `key` in a serialized JSON object. -/
def jsonField (j : Json) (key : String) : Option Json :=
  match j with
  | .obj kvs => Json.lookupKey kvs key
  | _ => none

/-- C5: the Display State record carries `session_id` and `cwd` string fields
(modelled from the spec, §3 — their declaration is missing from the provided
sources while daemon.rs, main.rs and aggregator.rs all use them); both appear
in the serialized JSON object and, like every other field, survive the
serialization round-trip. -/
theorem c5_session_identity_fields (s : WaybarState) :
    jsonField (toJsonWaybar s) "session_id" = some (.str s.session_id)
      ∧ jsonField (toJsonWaybar s) "cwd" = some (.str s.cwd)
      ∧ fromJsonWaybar (toJsonWaybar s) = some s := by
  refine ⟨?_, ?_, fromJson_toJson s⟩ <;> simp [jsonField, toJsonWaybar, Json.lookupKey]

/-- C2: the two tool-start handlers disagree.  The daemon's char-based
truncation (daemon.rs 96-104) is total and behaves as the claim states —
shown here on a 25-ASCII-character name (17 chars + `...`, 20 total) and on a
name of eight multi-byte characters (left intact).  But main.rs `handle_event`
(lines 196-204) tests `tool.len() > 20` in *bytes* and slices `&tool[..17]` at
a *byte* offset: on the same eight-euro-sign name (24 bytes, 8 chars) byte 17
falls inside the 6th character, so the slice panics — `mainTruncateTool`
returns `none`.  The claim's "never splits a character and never fails" is
the intended behaviour; the byte-based main.rs copy is the slip. -/
theorem c2_byte_truncation_panics :
    mainTruncateTool "€€€€€€€€" = none
      ∧ daemonTruncateTool "€€€€€€€€" = "€€€€€€€€"
      ∧ daemonTruncateTool "abcdefghijklmnopqrstuvwxy" = "abcdefghijklmnopq..."
      ∧ (daemonTruncateTool "abcdefghijklmnopqrstuvwxy").data.length = 20 := by decide

/-- The Display State with cost holding the `f64` denoted by `2.51609`. -/
def c9State : WaybarState :=
  { WaybarState.default with cost := f64OfRat (mkRat 251609 100000) }

/-- C9: with cost `2.51609`, `compute_text` renders `{cost:.2}` as `2.52`,
`{cost:.0}` as `3`, and plain `{cost}` (default precision 4) as `2.5161`
(state.rs 137-146; the values match the `test_compute_text_with_cost_precision`
unit test). -/
theorem c9_cost_formatting :
    computeText c9State "{cost:.2}" = "2.52"
      ∧ computeText c9State "{cost:.0}" = "3"
      ∧ computeText c9State "{cost}" = "2.5161" := by decide

/-- Stripping a prefix from a string that carries it leaves the rest. -/
theorem dropPre_self_append (pat r : List Char) : dropPre pat (pat ++ r) = some r := by
  simp [dropPre, List.isPrefixOf_iff_prefix, List.prefix_append, List.drop_left]

/-- `splitn(2, sep)` on a separator-free string: one part, no rest. -/
theorem splitFirst_no_sep (sep : Char) (l : List Char) (h : sep ∉ l) :
    splitFirst sep l = (l, none) := by
  induction l with
  | nil => rfl
  | cons c cs ih =>
      simp only [List.mem_cons, not_or] at h
      simp [splitFirst, Ne.symm h.1, ih h.2]

/-- `splitn(2, sep)` splits at the first separator and keeps the rest whole. -/
theorem splitFirst_found (sep : Char) (a b : List Char) (h : sep ∉ a) :
    splitFirst sep (a ++ sep :: b) = (a, some b) := by
  induction a with
  | nil => simp [splitFirst]
  | cons c cs ih =>
      simp only [List.mem_cons, not_or] at h
      simp [splitFirst, Ne.symm h.1, ih h.2]

/-- The scope of claim C10: `Status` messages, and `Event` messages whose
event type contains no `:` (the four types the daemon sends all qualify). -/
def colonFreeEventType : DaemonMessage → Prop
  | .event t _ => (':' : Char) ∉ t.data
  | .status _ => True

/-- C10: `decode ∘ encode` is the identity on every `Status` message and on
every `Event` whose event type is colon-free — in particular `tool = None`
round-trips to `None` and `tool = Some t` to the same tool, even when the
tool name or status payload itself contains colons (socket.rs 13-37). -/
theorem c10_decode_encode (m : DaemonMessage) (h : colonFreeEventType m) :
    DaemonMessage.decode m.encode = some m := by
  cases m with
  | status p =>
      show DaemonMessage.decode ("STATUS:" ++ p) = _
      simp only [DaemonMessage.decode, String.data_append]
      have h1 : dropPre ['E', 'V', 'E', 'N', 'T', ':']
          (['S', 'T', 'A', 'T', 'U', 'S', ':'] ++ p.data) = none := by
        simp [dropPre]
      rw [h1, dropPre_self_append]
  | event t tl =>
      cases tl with
      | none =>
          show DaemonMessage.decode ("EVENT:" ++ t) = _
          simp only [DaemonMessage.decode, String.data_append]
          rw [dropPre_self_append]
          dsimp only
          rw [splitFirst_no_sep _ _ h]
          rfl
      | some tool =>
          show DaemonMessage.decode ("EVENT:" ++ t ++ ":" ++ tool) = _
          simp only [DaemonMessage.decode, String.data_append, List.append_assoc]
          have h2 : (":" : String).data ++ tool.data = ':' :: tool.data := rfl
          rw [h2, dropPre_self_append]
          dsimp only
          rw [splitFirst_found _ _ _ h]
          rfl

/-- C10 witness: a `tool-start` event with tool `Read` round-trips. -/
theorem c10_witness :
    DaemonMessage.decode (DaemonMessage.encode (.event "tool-start" (some "Read")))
      = some (.event "tool-start" (some "Read")) :=
  c10_decode_encode _ (show (':' : Char) ∉ "tool-start".data by decide)

/-- `compute_text` reads only model, activity, cost and the four token
counters; states agreeing there render identically. -/
theorem computeText_congr (s₁ s₂ : WaybarState) (format : String)
    (h1 : s₁.model = s₂.model) (h2 : s₁.activity = s₂.activity) (h3 : s₁.cost = s₂.cost)
    (h4 : s₁.input_tokens = s₂.input_tokens) (h5 : s₁.output_tokens = s₂.output_tokens)
    (h6 : s₁.cache_read = s₂.cache_read) (h7 : s₁.cache_write = s₂.cache_write) :
    computeText s₁ format = computeText s₂ format := by
  simp only [computeText, computeTextData, getActivityIcon, h1, h2, h3, h4, h5, h6, h7]

/-- `compute_tooltip` reads only model, activity, cost and the token
counters. -/
theorem computeTooltip_congr (s₁ s₂ : WaybarState)
    (h1 : s₁.model = s₂.model) (h2 : s₁.activity = s₂.activity) (h3 : s₁.cost = s₂.cost)
    (h4 : s₁.input_tokens = s₂.input_tokens) (h5 : s₁.output_tokens = s₂.output_tokens)
    (h6 : s₁.cache_read = s₂.cache_read) (h7 : s₁.cache_write = s₂.cache_write) :
    computeTooltip s₁ = computeTooltip s₂ := by
  simp only [computeTooltip, h1, h2, h3, h4, h5, h6, h7]

/-- The status-field updates touch none of activity/class/alt/
last_activity_time/percentage/text/tooltip, and leave every field whose
payload part is absent untouched. -/
theorem applyStatusFields_frame (status : StatusPayload) (s : WaybarState) :
    (applyStatusFields status s).activity = s.activity
  ∧ (applyStatusFields status s).«class» = s.«class»
  ∧ (applyStatusFields status s).alt = s.alt
  ∧ (applyStatusFields status s).last_activity_time = s.last_activity_time
  ∧ (applyStatusFields status s).percentage = s.percentage
  ∧ (applyStatusFields status s).text = s.text
  ∧ (applyStatusFields status s).tooltip = s.tooltip
  ∧ (status.model = none → (applyStatusFields status s).model = s.model)
  ∧ (status.cost = none → (applyStatusFields status s).cost = s.cost)
  ∧ (status.session_id = none → (applyStatusFields status s).session_id = s.session_id)
  ∧ (status.cwd = none → (applyStatusFields status s).cwd = s.cwd)
  ∧ ((status.context_window = none
        ∨ ∃ cw, status.context_window = some cw ∧ cw.current_usage = none) →
      (applyStatusFields status s).input_tokens = s.input_tokens
      ∧ (applyStatusFields status s).output_tokens = s.output_tokens
      ∧ (applyStatusFields status s).cache_read = s.cache_read
      ∧ (applyStatusFields status s).cache_write = s.cache_write) := by
  obtain ⟨sid, cwd, model, cost, cw⟩ := status
  rcases model with _ | m <;> rcases cost with _ | c <;>
    rcases sid with _ | sid <;> rcases cwd with _ | cd <;>
    rcases cw with _ | ⟨_ | u⟩ <;>
    simp [applyStatusFields]

/-- C4: on a parseable `Status` payload, `handle_status` mutates only the
model, cost, session_id, cwd and token-counter fields — and of those only the
ones whose payload part is present, every absent part leaving its fields
untouched — and then recomputes `text` and `tooltip` from the updated state
(daemon.rs 121-187). -/
theorem c4_status_frame (payload : Json) (format : String) (s : WaybarState)
    (sp : StatusPayload) (h : parseStatusPayload payload = some sp) :
    (handleStatus payload format s).activity = s.activity
  ∧ (handleStatus payload format s).«class» = s.«class»
  ∧ (handleStatus payload format s).alt = s.alt
  ∧ (handleStatus payload format s).last_activity_time = s.last_activity_time
  ∧ (handleStatus payload format s).percentage = s.percentage
  ∧ (sp.model = none → (handleStatus payload format s).model = s.model)
  ∧ (sp.cost = none → (handleStatus payload format s).cost = s.cost)
  ∧ (sp.session_id = none → (handleStatus payload format s).session_id = s.session_id)
  ∧ (sp.cwd = none → (handleStatus payload format s).cwd = s.cwd)
  ∧ ((sp.context_window = none
        ∨ ∃ cw, sp.context_window = some cw ∧ cw.current_usage = none) →
      (handleStatus payload format s).input_tokens = s.input_tokens
      ∧ (handleStatus payload format s).output_tokens = s.output_tokens
      ∧ (handleStatus payload format s).cache_read = s.cache_read
      ∧ (handleStatus payload format s).cache_write = s.cache_write)
  ∧ (handleStatus payload format s).text
      = computeText (handleStatus payload format s) format
  ∧ (handleStatus payload format s).tooltip
      = computeTooltip (handleStatus payload format s) := by
  have hs : handleStatus payload format s =
      { applyStatusFields sp s with
          text := computeText (applyStatusFields sp s) format,
          tooltip := computeTooltip (applyStatusFields sp s) } := by
    simp only [handleStatus, h]
  obtain ⟨h1, h2, h3, h4, h5, h6, h7, h8, h9, h10, h11, h12⟩ :=
    applyStatusFields_frame sp s
  refine ⟨?_, ?_, ?_, ?_, ?_, ?_, ?_, ?_, ?_, ?_, ?_, ?_⟩
  · rw [hs]; exact h1
  · rw [hs]; exact h2
  · rw [hs]; exact h3
  · rw [hs]; exact h4
  · rw [hs]; exact h5
  · rw [hs]; exact h8
  · rw [hs]; exact h9
  · rw [hs]; exact h10
  · rw [hs]; exact h11
  · rw [hs]; exact h12
  · rw [hs]
    exact (computeText_congr
      { applyStatusFields sp s with
          text := computeText (applyStatusFields sp s) format,
          tooltip := computeTooltip (applyStatusFields sp s) }
      (applyStatusFields sp s) format rfl rfl rfl rfl rfl rfl rfl).symm
  · rw [hs]
    exact (computeTooltip_congr
      { applyStatusFields sp s with
          text := computeText (applyStatusFields sp s) format,
          tooltip := computeTooltip (applyStatusFields sp s) }
      (applyStatusFields sp s) rfl rfl rfl rfl rfl rfl rfl).symm

/-- A concrete status payload carrying only a model display name and a cost. -/
def c4Payload : Json :=
  .obj [("model", .obj [("display_name", .str "Opus 4.5")]),
        ("cost", .obj [("total_cost_usd", .num 0)])]

/-- C4 witness: the frame theorem applied to `c4Payload`, whose parse result
has `session_id`, `cwd` and `context_window` absent. -/
theorem c4_witness :
    (handleStatus c4Payload "{model}" WaybarState.default).activity
      = WaybarState.default.activity :=
  (c4_status_frame c4Payload "{model}" WaybarState.default
    ⟨none, none, some ⟨none, some "Opus 4.5"⟩, some ⟨some 0⟩, none⟩ (by decide)).1

/-- The signal count of the simulated daemon loop depends only on which of the
simulated milliseconds carry an event. -/
theorem fireCount_congr (ev₁ ev₂ : ℕ → Bool) (ticks : ℕ)
    (h : ∀ t, t < ticks → ev₁ t = ev₂ t) :
    fireCount ev₁ ticks = fireCount ev₂ ticks := by
  have aux : ∀ l : List ℕ, (∀ t ∈ l, ev₁ t = ev₂ t) → ∀ p : DebounceState × ℕ,
      l.foldl (fun p t => let r := debounceTick ev₁ t p.1;
        (r.1, p.2 + if r.2 then 1 else 0)) p
        = l.foldl (fun p t => let r := debounceTick ev₂ t p.1;
            (r.1, p.2 + if r.2 then 1 else 0)) p := by
    intro l
    induction l with
    | nil => intro _ _; rfl
    | cons a as ih =>
        intro hl p
        have ha : ev₁ a = ev₂ a := hl a (List.mem_cons_self a as)
        simp only [List.foldl_cons]
        rw [show debounceTick ev₁ a p.1 = debounceTick ev₂ a p.1 by
          simp [debounceTick, ha]]
        exact ih (fun t ht => hl t (List.mem_cons_of_mem _ ht)) _
  unfold fireCount
  exact congrArg Prod.snd
    (aux (List.range ticks) (fun t ht => h t (List.mem_range.mp ht)) _)

/-- C6: for every burst of `N ≥ 1` events arriving `quiet_window/2 = 8` ms
apart (quiet window 16 ms, cap 50 ms), the daemon loop fires `should_signal`
at most once strictly before 50 ms have elapsed since the first event, and at
least once by 50 ms; and `do_signal` resets `pending_signal` to false and
`first_event_time` to `None` (daemon.rs 190-204, 224-225, 64-80).  For
`N ≥ 7` the burst looks identical to `N = 7` inside the 50 ms window, so the
cases `N = 1, …, 7` decide the claim. -/
theorem c6_debounce_burst (N : ℕ) (d : DebounceState) (hN : 1 ≤ N) :
    fireCount (burstEvents N) MAX_DEBOUNCE_MS ≤ 1
      ∧ 1 ≤ fireCount (burstEvents N) (MAX_DEBOUNCE_MS + 1)
      ∧ (doSignalReset d).pending_signal = false
      ∧ (doSignalReset d).first_event_time = none := by
  refine ⟨?_, ?_, rfl, rfl⟩ <;>
  · by_cases h7 : N < 7
    · interval_cases N <;> decide
    · have he : ∀ ticks, ticks ≤ 51 →
          fireCount (burstEvents N) ticks = fireCount (burstEvents 7) ticks := by
        intro ticks hticks
        refine fireCount_congr _ _ _ fun t ht => ?_
        have h1 : t < 8 * N := by omega
        have h2 : t < 8 * 7 := by omega
        simp [burstEvents, h1, h2]
      rw [he _ (by decide)]
      decide

/-- C6 witness: the debounce theorem at a burst of three events. -/
theorem c6_witness :
    fireCount (burstEvents 3) MAX_DEBOUNCE_MS ≤ 1
      ∧ 1 ≤ fireCount (burstEvents 3) (MAX_DEBOUNCE_MS + 1)
      ∧ (doSignalReset debounceInit).pending_signal = false
      ∧ (doSignalReset debounceInit).first_event_time = none :=
  c6_debounce_burst 3 debounceInit (by decide)

/-- Session A of the aggregation scenario: activity `Read`, cost 1.00, last
activity 10 seconds before the read time 1000. -/
def c7SessionA : WaybarState :=
  { WaybarState.default with activity := "Read", «class» := "tool-active",
                             alt := "active", cost := 1, last_activity_time := 990 }

/-- Session B of the aggregation scenario: idle, cost 0.50, last activity 400
seconds before the read time 1000 — stale. -/
def c7SessionB : WaybarState :=
  { WaybarState.default with cost := mkRat 1 2, last_activity_time := 600 }

/-- The session directory of the aggregation scenario. -/
def c7Entries : List (String × Json) :=
  [("a.json", toJsonWaybar c7SessionA), ("b.json", toJsonWaybar c7SessionB)]

/-- C7: on a directory holding exactly sessions A (Read, cost 1.00, age 10 s)
and B (Idle, cost 0.50, age 400 s), `aggregate()` keeps only A and reports
`sessions = 1`, `total_cost = 1.00` and the non-idle class `"active"`
(aggregator.rs 54-113); and in general every session a recompute includes has
a nonzero `last_activity_time` at most 300 s old — so any session whose
timestamp is 0 or older than the stale timeout is excluded. -/
theorem c7_aggregate_scenario :
    includedSessions c7Entries 1000 = [c7SessionA]
  ∧ (aggregate c7Entries 1000 "/home/user").sessions = 1
  ∧ (aggregate c7Entries 1000 "/home/user").total_cost = 1
  ∧ (aggregate c7Entries 1000 "/home/user").«class» = "active"
  ∧ ∀ (entries : List (String × Json)) (now : ℤ) (st : WaybarState),
      st ∈ includedSessions entries now →
      st.last_activity_time ≠ 0 ∧ now - st.last_activity_time ≤ 300 := by
  have hinc : includedSessions c7Entries 1000 = [c7SessionA] := by decide
  refine ⟨hinc, ?_, ?_, ?_, ?_⟩
  · simp [aggregate, hinc, computeAggregate]
  · simp [aggregate, hinc, computeAggregate, c7SessionA, WaybarState.default]
  · simp [aggregate, hinc, computeAggregate, c7SessionA, WaybarState.default]
  · intro entries now st hmem
    obtain ⟨e, hme, hfe⟩ := List.mem_filterMap.mp hmem
    by_cases hj : hasJsonExt e.1
    · simp only [hj, if_true] at hfe
      cases hrc : readContent e.2 now with
      | error err => rw [hrc] at hfe; simp at hfe
      | ok st' =>
          rw [hrc] at hfe
          dsimp only at hfe
          split_ifs at hfe with hc
          · obtain ⟨hc1, hc2⟩ := hc
            rw [show ((STALE_TIMEOUT_SECS : ℤ)) = 300 from rfl] at hc2
            obtain rfl : st' = st := by simpa using hfe
            exact ⟨by omega, by omega⟩
    · simp only [hj, if_false] at hfe
      simp at hfe

/-- C7 witness: the exclusion bound applied to session A of the concrete
directory. -/
theorem c7_witness :
    c7SessionA.last_activity_time ≠ 0 ∧ 1000 - c7SessionA.last_activity_time ≤ 300 :=
  c7_aggregate_scenario.2.2.2.2 c7Entries 1000 c7SessionA (by decide)

/-! ### Placeholder pass-through (claim C8)

A *placeholder* is `{name}` with a brace-free name.  The replacement patterns
of `compute_text` are all placeholders of recognized names, and two distinct
placeholders can never overlap in a string: every `str::replace` pass
therefore preserves each occurrence of an unrecognized placeholder. -/

/-- The name between the braces contains no brace. -/
def braceFree (l : List Char) : Bool := l.all fun c => !(c == '{') && !(c == '}')

/-- The placeholder string `{name}`. -/
def placeholder (nm : List Char) : List Char := '{' :: (nm ++ ['}'])

theorem bf_mem {l : List Char} (h : braceFree l = true) {c : Char} (hc : c ∈ l) :
    c ≠ '{' ∧ c ≠ '}' := by
  have := List.all_eq_true.mp h c hc
  simpa using this

theorem bf_tail {a : Char} {l : List Char} (h : braceFree (a :: l) = true) :
    braceFree l = true := by
  simp only [braceFree, List.all_cons, Bool.and_eq_true] at h ⊢
  exact h.2

theorem placeholder_ne_nil (nm : List Char) : placeholder nm ≠ [] := by
  simp [placeholder]

/-- Two prefixes of one list are comparable. -/
theorem prefixTotal {α : Type} : ∀ (u w s : List α), u <+: s → w <+: s →
    u <+: w ∨ w <+: u := by
  intro u
  induction u with
  | nil => intro w s _ _; exact Or.inl (List.nil_prefix)
  | cons a u' ih =>
      intro w s hu hw
      cases w with
      | nil => exact Or.inr (List.nil_prefix)
      | cons b w' =>
          cases s with
          | nil => exact absurd hu (by simp)
          | cons c s' =>
              rw [List.cons_prefix_cons] at hu hw
              rcases ih w' s' hu.2 hw.2 with h | h
              · exact Or.inl (List.cons_prefix_cons.mpr ⟨hu.1.trans hw.1.symm, h⟩)
              · exact Or.inr (List.cons_prefix_cons.mpr ⟨hw.1.trans hu.1.symm, h⟩)

/-- A brace-free name followed by `}` determines the name: no proper prefix
relation is possible between two such strings with different names. -/
theorem bf_ext_eq : ∀ (nm x : List Char), braceFree nm = true → braceFree x = true →
    (nm ++ ['}']) <+: (x ++ ['}']) → nm = x := by
  intro nm
  induction nm with
  | nil =>
      intro x hnm hx h
      cases x with
      | nil => rfl
      | cons b x' =>
          rw [List.nil_append, List.cons_append, List.cons_prefix_cons] at h
          exact absurd h.1.symm (bf_mem hx (List.mem_cons_self b x')).2
  | cons a nm' ih =>
      intro x hnm hx h
      cases x with
      | nil =>
          rw [List.cons_append, List.nil_append, List.cons_prefix_cons] at h
          exact absurd h.1 (bf_mem hnm (List.mem_cons_self a nm')).2
      | cons b x' =>
          rw [List.cons_append, List.cons_append, List.cons_prefix_cons] at h
          rw [h.1, ih x' (bf_tail hnm) (bf_tail hx) h.2]

/-- `str::replace` copies any region that no pattern occurrence touches. -/
theorem replaceAll_copy (pat repl : List Char) :
    ∀ (a v : List Char),
      (∀ j, j < a.length → pat.isPrefixOf ((a ++ v).drop j) = false) →
      replaceAll pat repl (a ++ v) = a ++ replaceAll pat repl v := by
  intro a
  induction a with
  | nil => intro v _; rfl
  | cons c a' ih =>
      intro v h
      have h0 : pat.isPrefixOf (c :: (a' ++ v)) = false := by
        simpa using h 0 (by simp)
      rw [List.cons_append, replaceAll_cons, h0]
      simp only [Bool.false_eq_true, if_false, List.cons_append]
      rw [ih v fun j hj => by simpa [List.drop_succ_cons] using h (j + 1) (by simpa using hj)]

/-- No placeholder pattern can match strictly inside a placeholder occurrence:
the pattern starts with `{`, and every inner character of `{name}` is
brace-free or the closing `}`. -/
theorem inside_no_match (x nm v : List Char) (hnm : braceFree nm = true)
    (j : ℕ) (hj0 : 0 < j) (hjlt : j < (placeholder nm).length) :
    (placeholder x).isPrefixOf ((placeholder nm ++ v).drop j) = false := by
  obtain ⟨j', rfl⟩ : ∃ j', j = j' + 1 := ⟨j - 1, by omega⟩
  have hplen : (placeholder nm).length = nm.length + 2 := by simp [placeholder]
  have hlen1 : j' < (nm ++ '}' :: v).length := by
    simp only [List.length_append, List.length_cons]
    omega
  have hsh : (placeholder nm ++ v).drop (j' + 1) = (nm ++ '}' :: v).drop j' := by
    simp [placeholder]
  have hne : (nm ++ '}' :: v)[j'] ≠ '{' := by
    rcases Nat.lt_or_ge j' nm.length with hlt | hge
    · rw [List.getElem_append_left hlt]
      exact (bf_mem hnm (List.getElem_mem hlt)).1
    · have hj'eq : j' = nm.length := by omega
      subst hj'eq
      rw [List.getElem_append_right (le_refl _)]
      simp
  rw [hsh, List.drop_eq_getElem_cons hlen1]
  show ('{' :: (x ++ ['}'])).isPrefixOf _ = false
  rw [List.isPrefixOf_cons₂, beq_eq_false_iff_ne.mpr (Ne.symm hne), Bool.false_and]

theorem infix_of_infix_right {l t s : List Char} (h : l <:+: t) : l <:+: s ++ t := by
  obtain ⟨a, b, hab⟩ := h
  exact ⟨s ++ a, b, by rw [← hab]; simp [List.append_assoc]⟩

/-- The heart of claim C8: replacing every occurrence of one placeholder
pattern preserves every occurrence of any placeholder with a different
brace-free name, whatever the replacement text. -/
theorem replaceAll_keeps (nm x repl : List Char)
    (hnm : braceFree nm = true) (hx : braceFree x = true) (hne : nm ≠ x) :
    ∀ (n : ℕ) (s : List Char), s.length ≤ n →
      placeholder nm <:+: s →
      placeholder nm <:+: replaceAll (placeholder x) repl s := by
  intro n
  induction n with
  | zero =>
      intro s hs hin
      have hnil : s = [] := List.length_eq_zero.mp (Nat.le_zero.mp hs)
      subst hnil
      exact absurd (List.infix_nil.mp hin) (placeholder_ne_nil nm)
  | succ n ih =>
      intro s hs hin
      cases s with
      | nil => exact absurd (List.infix_nil.mp hin) (placeholder_ne_nil nm)
      | cons c rest =>
          obtain ⟨u, v, huv⟩ := hin
          by_cases hp : (placeholder x).isPrefixOf (c :: rest) = true
          · -- a pattern occurrence starts here
            have hpx' : placeholder x <+: c :: rest := List.isPrefixOf_iff_prefix.mp hp
            obtain ⟨r, hr⟩ := hpx'
            rw [replaceAll_cons, if_pos hp]
            have hrdrop : rest.drop ((placeholder x).length - 1) = r := by
              have h2 : ('{' : Char) :: ((x ++ ['}']) ++ r) = c :: rest := by
                rw [← hr]; simp [placeholder]
              have h3 : rest = (x ++ ['}']) ++ r := ((List.cons.injEq _ _ _ _).mp h2).2.symm
              have h4 : (placeholder x).length - 1 = (x ++ ['}']).length := by
                simp [placeholder]
              rw [h3, h4, List.drop_left]
            rw [hrdrop]
            have hrlen : r.length ≤ n := by
              have hl := congrArg List.length hr
              simp only [List.length_append, List.length_cons] at hl
              have hpxlen : 1 ≤ (placeholder x).length := by simp [placeholder]
              simp only [List.length_cons] at hs
              omega
            -- the placeholder occurrence cannot start inside the pattern occurrence
            have hcontra : ∀ w₂ : List Char,
                placeholder x = u ++ (placeholder nm ++ w₂) → False := by
              intro w₂ hw2
              cases u with
              | nil =>
                  simp only [List.nil_append] at hw2
                  have hpref : placeholder nm <+: placeholder x := ⟨w₂, hw2.symm⟩
                  simp only [placeholder] at hpref
                  rw [List.cons_prefix_cons] at hpref
                  exact hne (bf_ext_eq nm x hnm hx hpref.2)
              | cons uh u₁ =>
                  have hhd : placeholder x = uh :: (u₁ ++ (placeholder nm ++ w₂)) := by
                    simpa using hw2
                  simp only [placeholder] at hhd
                  have huh := (List.cons.injEq _ _ _ _).mp hhd
                  have hbrace : ('{' : Char) ∈ x ++ ['}'] := by
                    rw [huh.2]
                    exact List.mem_append_right _
                      (List.mem_append_left _ (List.mem_cons_self _ _))
                  rcases List.mem_append.mp hbrace with hm | hm
                  · exact (bf_mem hx hm).1 rfl
                  · simp at hm
            have hu : u <+: c :: rest := ⟨placeholder nm ++ v, by rw [← huv]; simp⟩
            have hpx2 : placeholder x <+: c :: rest := ⟨r, hr⟩
            rcases prefixTotal u (placeholder x) (c :: rest) hu hpx2 with hupx | hpxu
            · -- u is a prefix of the pattern occurrence
              obtain ⟨w, hw⟩ := hupx
              by_cases hwnil : w = []
              · -- u = pattern: the placeholder lies entirely in r
                subst hwnil
                rw [List.append_nil] at hw
                subst hw
                have h2 : r = placeholder nm ++ v := by
                  have h1 : placeholder x ++ r = placeholder x ++ (placeholder nm ++ v) := by
                    rw [hr, ← huv]; simp [List.append_assoc]
                  exact List.append_cancel_left h1
                have hrin : placeholder nm <:+: r := ⟨[], v, by rw [h2]; simp⟩
                exact infix_of_infix_right (ih r hrlen hrin)
              · -- w ≠ []: decide where the placeholder sits relative to w
                have hwr : placeholder nm ++ v = w ++ r := by
                  have h1 : u ++ (placeholder nm ++ v) = u ++ (w ++ r) := by
                    rw [← List.append_assoc u w r, hw, hr, ← huv]
                    simp [List.append_assoc]
                  exact List.append_cancel_left h1
                have hpnm : placeholder nm <+: placeholder nm ++ v := ⟨v, rfl⟩
                have hwpre : w <+: placeholder nm ++ v := ⟨r, hwr.symm⟩
                rcases prefixTotal (placeholder nm) w _ hpnm hwpre with hnw | hwn
                · -- the placeholder starts inside the pattern occurrence
                  obtain ⟨w₂, hw2⟩ := hnw
                  exact (hcontra w₂ (by rw [← hw, ← hw2])).elim
                · -- w is a prefix of the placeholder
                  by_cases hwp : w = placeholder nm
                  · exact (hcontra [] (by rw [← hw, hwp, List.append_nil])).elim
                  · obtain ⟨t, ht⟩ := hwn
                    have htne : t ≠ [] := by
                      intro h0
                      rw [h0, List.append_nil] at ht
                      exact hwp ht
                    have hlast : w.getLast? = some '}' := by
                      have h1 : (placeholder x).getLast? = some '}' := by
                        simp only [placeholder]
                        rw [show ('{' : Char) :: (x ++ ['}']) = ('{' :: x) ++ ['}'] by simp,
                            List.getLast?_concat]
                      rw [← hw, List.getLast?_append_of_ne_nil _ hwnil] at h1
                      exact h1
                    have hmem : ('}' : Char) ∈ w := List.mem_of_getLast?_eq_some hlast
                    have hwd : w <+: ('{' :: nm) := by
                      have h1 : (placeholder nm).dropLast = '{' :: nm := by
                        simp only [placeholder]
                        rw [show ('{' : Char) :: (nm ++ ['}']) = ('{' :: nm) ++ ['}'] by simp,
                            List.dropLast_concat]
                      have h2 : (placeholder nm).dropLast = w ++ t.dropLast := by
                        rw [← ht, List.dropLast_append_of_ne_nil w htne]
                      exact ⟨t.dropLast, by rw [← h2, h1]⟩
                    have hzm : ('}' : Char) ∈ '{' :: nm := hwd.subset hmem
                    rcases List.mem_cons.mp hzm with hm | hm
                    · simp at hm
                    · exact absurd rfl (bf_mem hnm hm).2
            · -- the pattern occurrence lies inside u
              obtain ⟨u', hu'⟩ := hpxu
              have hrin : placeholder nm <:+: r := by
                have h1 : placeholder x ++ (u' ++ (placeholder nm ++ v))
                    = placeholder x ++ r := by
                  rw [← List.append_assoc, hu', hr, ← huv]
                  simp [List.append_assoc]
                have h2 : u' ++ (placeholder nm ++ v) = r := List.append_cancel_left h1
                exact ⟨u', v, by rw [← h2]; simp [List.append_assoc]⟩
              exact infix_of_infix_right (ih r hrlen hrin)
          · -- no pattern occurrence here
            cases u with
            | cons uh u₁ =>
                have hc2 : uh = c ∧ u₁ ++ (placeholder nm ++ v) = rest := by
                  have h1 : uh :: (u₁ ++ (placeholder nm ++ v)) = c :: rest := by
                    rw [← huv]; simp [List.append_assoc]
                  exact ⟨((List.cons.injEq _ _ _ _).mp h1).1,
                         ((List.cons.injEq _ _ _ _).mp h1).2⟩
                have hrest : placeholder nm <:+: rest :=
                  ⟨u₁, v, by rw [← hc2.2]; simp [List.append_assoc]⟩
                have hrlen : rest.length ≤ n := by
                  simp only [List.length_cons] at hs
                  omega
                rw [replaceAll_cons, if_neg (by simp [hp])]
                exact List.infix_cons (ih rest hrlen hrest)
            | nil =>
                have hpv : placeholder nm ++ v = c :: rest := by simpa using huv
                have hcopy : replaceAll (placeholder x) repl (placeholder nm ++ v)
                    = placeholder nm ++ replaceAll (placeholder x) repl v := by
                  apply replaceAll_copy
                  intro j hj
                  rcases Nat.eq_zero_or_pos j with rfl | hj0
                  · rw [List.drop_zero, hpv]
                    exact Bool.eq_false_iff.mpr hp
                  · exact inside_no_match x nm v hnm j hj0 hj
                rw [← hpv, hcopy]
                exact ⟨[], replaceAll (placeholder x) repl v, by simp⟩

/-- `compute_text` as the explicit sequence of replacement passes. -/
theorem computeTextData_eq (s : WaybarState) (format : String) :
    computeTextData s format
      = replaceAll "{cache_write}".data (Nat.repr s.cache_write).data
      (replaceAll "{cache_read}".data (Nat.repr s.cache_read).data
        (replaceAll "{output_tokens}".data (Nat.repr s.output_tokens).data
          (replaceAll "{input_tokens}".data (Nat.repr s.input_tokens).data
            (replaceAll "{tokens}".data (Nat.repr (s.input_tokens + s.output_tokens)).data
              (replaceAll "{cost}".data (fmtFixed s.cost 4)
                ((List.range 7).foldl (fun r precision =>
                    let ph := costPlaceholder precision
                    if containsSub ph r then replaceAll ph (fmtFixed s.cost precision) r
                    else r)
                  (replaceAll "{icon}".data (getActivityIcon s).data
                    (replaceAll "{activity}".data s.activity.data
                      (replaceAll "{model}".data s.model.data format.data))))))))) := rfl

/-- The names whose placeholders `compute_text` recognizes (state.rs
125-157): the simple fields, the seven cost precisions, and plain cost. -/
def recognizedNames : List (List Char) :=
  [ "model".data, "activity".data, "icon".data,
    "cost:.0".data, "cost:.1".data, "cost:.2".data, "cost:.3".data,
    "cost:.4".data, "cost:.5".data, "cost:.6".data,
    "cost".data, "tokens".data, "input_tokens".data, "output_tokens".data,
    "cache_read".data, "cache_write".data ]

/-- C8: `compute_text` is deterministic — two calls on the same state and
format are equal — and every placeholder `{name}` whose brace-free name is
not recognized survives every replacement pass: if it occurs in the format
string it still occurs in the output characters (`computeTextData`, the
character stream of `compute_text`'s result), for every state. -/
theorem c8_unknown_placeholder_passthrough (s : WaybarState) (format : String)
    (nm : List Char) (hbf : braceFree nm = true) (hun : nm ∉ recognizedNames)
    (hin : placeholder nm <:+: format.data) :
    computeText s format = computeText s format
      ∧ computeText s format = ⟨computeTextData s format⟩
      ∧ placeholder nm <:+: computeTextData s format := by
  refine ⟨rfl, rfl, ?_⟩
  have step : ∀ (y repl r : List Char), braceFree y = true → nm ≠ y →
      placeholder nm <:+: r →
      placeholder nm <:+: replaceAll (placeholder y) repl r :=
    fun y repl r hy hney h => replaceAll_keeps nm y repl hbf hy hney r.length r le_rfl h
  simp only [recognizedNames, List.mem_cons, List.not_mem_nil, or_false] at hun
  push_neg at hun
  obtain ⟨h1, h2, h3, h4, h5, h6, h7, h8, h9, h10, h11, h12, h13, h14, h15, h16⟩ := hun
  have stepIf : ∀ (k : ℕ) (r : List Char),
      braceFree ("cost:.".data ++ (Nat.repr k).data) = true →
      nm ≠ "cost:.".data ++ (Nat.repr k).data →
      placeholder nm <:+: r →
      placeholder nm <:+:
        (if containsSub (costPlaceholder k) r = true
         then replaceAll (costPlaceholder k) (fmtFixed s.cost k) r else r) := by
    intro k r hbk hnek h
    by_cases hc : containsSub (costPlaceholder k) r = true
    · rw [if_pos hc]
      exact step ("cost:.".data ++ (Nat.repr k).data) _ _ hbk hnek h
    · rw [if_neg hc]
      exact h
  have hfold : ∀ r : List Char, placeholder nm <:+: r →
      placeholder nm <:+: (List.range 7).foldl (fun r precision =>
        let ph := costPlaceholder precision
        if containsSub ph r then replaceAll ph (fmtFixed s.cost precision) r
        else r) r := by
    intro r h
    rw [show List.range 7 = [0, 1, 2, 3, 4, 5, 6] from rfl]
    simp only [List.foldl_cons, List.foldl_nil]
    exact stepIf 6 _ (by decide) h10
      (stepIf 5 _ (by decide) h9
        (stepIf 4 _ (by decide) h8
          (stepIf 3 _ (by decide) h7
            (stepIf 2 _ (by decide) h6
              (stepIf 1 _ (by decide) h5
                (stepIf 0 _ (by decide) h4 h))))))
  rw [computeTextData_eq]
  exact step "cache_write".data _ _ (by decide) h16
    (step "cache_read".data _ _ (by decide) h15
      (step "output_tokens".data _ _ (by decide) h14
        (step "input_tokens".data _ _ (by decide) h13
          (step "tokens".data _ _ (by decide) h12
            (step "cost".data _ _ (by decide) h11
              (hfold _
                (step "icon".data _ _ (by decide) h3
                  (step "activity".data _ _ (by decide) h2
                    (step "model".data _ _ (by decide) h1 hin)))))))))

/-- C8 witness: the unknown placeholder `{foo}` passes through the default
state's rendering of the format `{foo} {model}!`. -/
theorem c8_witness :
    computeText WaybarState.default "{foo} {model}!"
        = computeText WaybarState.default "{foo} {model}!"
      ∧ computeText WaybarState.default "{foo} {model}!"
          = ⟨computeTextData WaybarState.default "{foo} {model}!"⟩
      ∧ placeholder "foo".data
          <:+: computeTextData WaybarState.default "{foo} {model}!" :=
  c8_unknown_placeholder_passthrough WaybarState.default "{foo} {model}!"
    "foo".data (by decide) (by decide) (by decide)

end LlmWaybar
